import Mathlib

/-!
Verification of the BQL parser front-end of the sensorbee repository.

The grammar is taken from the PEG description `bql.peg` in the sources
(compiled with pointlander/peg in the original build).  Each PEG rule is
embedded as a function from an input (a list of characters, positions are
rune indexes as in the original) and a start position to an optional pair
of the end position and the list of semantic actions emitted by the match.
As in the pointlander/peg engine, semantic actions of failed alternatives
are discarded and all actions run only after the whole parse succeeded,
in match order, against the parse stack.

The parse stack itself (`parseStack`, the `Assemble*` reductions and the
AST node constructors) is not part of the given sources — only its test
file and the grammar actions that call it are — so those definitions are
modelled from the specification, as marked in their doc comments.  A
reduction that would `panic` in Go is modelled by returning `none`.

In pointlander/peg, a character class written with double brackets such
as `[[a-z]]` matches case-insensitively, i.e. it accepts `a`-`z` and
`A`-`Z`; double-quoted literals such as `"SELECT"` match their exact
characters.  The embedding follows these semantics.
-/

namespace SensorBee

/-- Binary/logical operator tags pushed by the operator token rules
(`Or`, `And`, `Equal`, ..., `Modulo` in bql.peg). -/
inductive Operator : Type
  | Or | And
  | Equal | Less | LessOrEqual | Greater | GreaterOrEqual | NotEqual
  | Plus | Minus
  | Multiply | Divide | Modulo
deriving DecidableEq, Repr

/-- Stream emission modes (`ISTREAM`/`DSTREAM`/`RSTREAM`). -/
inductive EmitterKind : Type
  | Istream | Dstream | Rstream
deriving DecidableEq, Repr

/-- Range units of a windowed FROM clause (`TUPLES`/`SECONDS`). -/
inductive RangeUnitKind : Type
  | Tuples | Seconds
deriving DecidableEq, Repr

/-- Modelled from the spec: optional clauses are represented by an
explicit two-variant type (`Empty` marker vs `Present` payload),
constructed unconditionally by the corresponding reduction. -/
inductive OptClause (α : Type) : Type
  | Empty : OptClause α
  | Present : α → OptClause α
deriving DecidableEq, Repr

/-- The payload of a stack fragment: a leaf token or a composite AST
node.  Leaf constructors mirror the components pushed by the grammar's
`PushComponent` calls; composite constructors are modelled from the
spec's AST node set (ast.go is not part of the given sources).
Float literals keep the matched numeral text, the numeric value being
out of scope for the parser core. -/
inductive Component : Type
  | Raw (s : List Char)
  | Relation (name : List Char)
  | ColumnName (name : List Char)
  | NumericLiteral (value : Int)
  | FloatLiteral (raw : List Char)
  | BoolLiteral (b : Bool)
  | StringLiteral (v : List Char)
  | Wildcard
  | FuncName (name : List Char)
  | SourceSinkName (name : List Char)
  | SourceSinkType (name : List Char)
  | SourceSinkParamKey (name : List Char)
  | SourceSinkParamVal (v : List Char)
  | Op (o : Operator)
  | EmitterKw (e : EmitterKind)
  | RangeUnitKw (u : RangeUnitKind)
  | BinaryOp (op : Operator) (left right : Component)
  | FuncApp (name : List Char) (args : List Component)
  | ExprList (exprs : List Component)
  | Projections (exprs : List Component)
  | FromClause (rels : OptClause (List (List Char)))
  | FilterClause (e : OptClause Component)
  | GroupingClause (es : OptClause (List Component))
  | HavingClause (e : OptClause Component)
  | RangeAST (n : Int) (u : RangeUnitKind)
  | WindowedFromClause (w : OptClause (List (List Char) × Int × RangeUnitKind))
  | EmitProjectionsAST (em : EmitterKind) (exprs : List Component)
  | SourceSinkParamAST (key v : List Char)
  | SourceSinkSpecsAST (params : List Component)
  | SelectStmt (projections : List Component)
      (fromCl : OptClause (List (List Char)))
      (filterCl : OptClause Component)
      (groupingCl : OptClause (List Component))
      (havingCl : OptClause Component)
  | CreateStreamAsSelectStmt (rel : List Char) (emitProj : Component)
      (windowedFrom : OptClause (List (List Char) × Int × RangeUnitKind))
      (filterCl : OptClause Component)
      (groupingCl : OptClause (List Component))
      (havingCl : OptClause Component)
  | CreateSourceStmt (name ty : List Char) (params : List Component)
  | CreateSinkStmt (name ty : List Char) (params : List Component)
  | CreateStreamFromSourceStmt (rel srcName : List Char)
  | CreateStreamFromSourceExtStmt (rel ty : List Char) (params : List Component)
  | InsertIntoSelectStmt (sink : List Char) (sel : Component)

/-- A stack element: a source span `[begin, ending)` (rune offsets, named
`begin`/`end` in the Go test file) together with its payload. -/
structure Fragment : Type where
  begin : Nat
  ending : Nat
  comp : Component

/-- The assembler's fragment stack; the head of the list is the top. -/
abbrev parseStack := List Fragment

/-- Modelled from the spec: components implementing the `Expression`
interface of the AST (operands of a binary operation). -/
def isExpr : Component → Bool
  | .ColumnName _ => true
  | .NumericLiteral _ => true
  | .FloatLiteral _ => true
  | .BoolLiteral _ => true
  | .StringLiteral _ => true
  | .Wildcard => true
  | .BinaryOp _ _ _ => true
  | .FuncApp _ _ => true
  | _ => false

/-- Whether a fragment's span lies within `[b, e)`.  Zero-width
fragments (the empty-clause markers) are never collected by an
enclosing reduction: the spec requires that reductions reached through
the public entry point never signal an invariant violation, which rules
out picking up a marker pushed at the boundary position of a later
clause's span. -/
def inSpan (b e : Nat) (f : Fragment) : Bool :=
  decide (b ≤ f.begin) && decide (f.ending ≤ e) && decide (f.begin < f.ending)

/-- Modelled from the spec: pop every fragment whose span lies within
`[b, e)` (a contiguous top-of-stack suffix by the ordering invariant)
and return their payloads in original left-to-right order. -/
def collect (ps : parseStack) (b e : Nat) : List Component :=
  ((ps.takeWhile (inSpan b e)).map Fragment.comp).reverse

/-- The stack that remains after `collect`. -/
def dropSpan (ps : parseStack) (b e : Nat) : parseStack :=
  ps.dropWhile (inSpan b e)

/-- Convert collected components to relation names; `none` if a
component is not a `Relation` leaf. -/
def relNames : List Component → Option (List (List Char))
  | [] => some []
  | .Relation n :: rest => (relNames rest).map (n :: ·)
  | _ => none

/-- Convert collected components to source/sink parameters; `none` if a
component is not a `SourceSinkParamAST`. -/
def paramComps : List Component → Bool
  | [] => true
  | .SourceSinkParamAST _ _ :: rest => paramComps rest
  | _ => false

/-- Modelled from the spec (stack.go is not in the given sources; shape
from §8's arity table and the Go test file): with exactly one collected
fragment the reduction is a passthrough re-tagged to the target span;
with exactly three of shape (operand, operator, operand) it builds a
binary node; any other count or payload shape is an invariant
violation, modelled as `none`. -/
def AssembleBinaryOperation (ps : parseStack) (b e : Nat) : Option parseStack :=
  match collect ps b e with
  | [x] => some (⟨b, e, x⟩ :: dropSpan ps b e)
  | [l, .Op o, r] =>
      if isExpr l && isExpr r then
        some (⟨b, e, .BinaryOp o l r⟩ :: dropSpan ps b e)
      else none
  | _ => none

/-- Modelled from the spec: no collected fragment means the FROM clause
was absent, so an explicit empty marker is pushed; otherwise the
collected relations form the clause. -/
def AssembleFrom (ps : parseStack) (b e : Nat) : Option parseStack :=
  match collect ps b e with
  | [] => some (⟨b, e, .FromClause .Empty⟩ :: ps)
  | elems =>
      match relNames elems with
      | some ns => some (⟨b, e, .FromClause (.Present ns)⟩ :: dropSpan ps b e)
      | none => none

/-- Modelled from the spec: empty span pushes the empty-filter marker,
otherwise exactly one expression fragment forms the WHERE clause. -/
def AssembleFilter (ps : parseStack) (b e : Nat) : Option parseStack :=
  match collect ps b e with
  | [] => some (⟨b, e, .FilterClause .Empty⟩ :: ps)
  | [x] =>
      if isExpr x then some (⟨b, e, .FilterClause (.Present x)⟩ :: dropSpan ps b e)
      else none
  | _ => none

/-- Modelled from the spec: empty marker when absent, otherwise the
collected group-by expressions in left-to-right order. -/
def AssembleGrouping (ps : parseStack) (b e : Nat) : Option parseStack :=
  match collect ps b e with
  | [] => some (⟨b, e, .GroupingClause .Empty⟩ :: ps)
  | elems =>
      if elems.all isExpr then
        some (⟨b, e, .GroupingClause (.Present elems)⟩ :: dropSpan ps b e)
      else none

/-- Modelled from the spec: empty marker when absent, otherwise exactly
one expression fragment forms the HAVING clause. -/
def AssembleHaving (ps : parseStack) (b e : Nat) : Option parseStack :=
  match collect ps b e with
  | [] => some (⟨b, e, .HavingClause .Empty⟩ :: ps)
  | [x] =>
      if isExpr x then some (⟨b, e, .HavingClause (.Present x)⟩ :: dropSpan ps b e)
      else none
  | _ => none

/-- Modelled from the spec: empty marker when the windowed FROM clause
is absent, otherwise the relations followed by the assembled range. -/
def AssembleWindowedFrom (ps : parseStack) (b e : Nat) : Option parseStack :=
  match collect ps b e with
  | [] => some (⟨b, e, .WindowedFromClause .Empty⟩ :: ps)
  | elems =>
      match elems.getLast?, relNames elems.dropLast with
      | some (.RangeAST n u), some ns =>
          some (⟨b, e, .WindowedFromClause (.Present (ns, n, u))⟩ :: dropSpan ps b e)
      | _, _ => none

/-- Modelled from the spec: the N ≥ 1 projection expressions are
collected in left-to-right order into one ordered sequence node. -/
def AssembleProjections (ps : parseStack) (b e : Nat) : Option parseStack :=
  match collect ps b e with
  | [] => none
  | elems =>
      if elems.all isExpr then
        some (⟨b, e, .Projections elems⟩ :: dropSpan ps b e)
      else none

/-- Modelled from the spec: the N ≥ 1 function-call argument
expressions are collected into one ordered sequence node. -/
def AssembleExpressions (ps : parseStack) (b e : Nat) : Option parseStack :=
  match collect ps b e with
  | [] => none
  | elems =>
      if elems.all isExpr then
        some (⟨b, e, .ExprList elems⟩ :: dropSpan ps b e)
      else none

/-- Modelled from the spec: the WITH parameter list; an empty span
yields the empty list (the clause was absent). -/
def AssembleSourceSinkSpecs (ps : parseStack) (b e : Nat) : Option parseStack :=
  match collect ps b e with
  | elems =>
      if paramComps elems then
        some (⟨b, e, .SourceSinkSpecsAST elems⟩ :: dropSpan ps b e)
      else none

/-- Modelled from the spec: fixed-arity reduction popping the range
unit and the numeric literal. -/
def AssembleRange (ps : parseStack) : Option parseStack :=
  match ps with
  | ⟨_, ue, .RangeUnitKw u⟩ :: ⟨nb, _, .NumericLiteral n⟩ :: rest =>
      some (⟨nb, ue, .RangeAST n u⟩ :: rest)
  | _ => none

/-- Modelled from the spec: fixed-arity reduction popping the argument
list and the function name. -/
def AssembleFuncApp (ps : parseStack) : Option parseStack :=
  match ps with
  | ⟨_, pe, .ExprList args⟩ :: ⟨fb, _, .FuncName f⟩ :: rest =>
      some (⟨fb, pe, .FuncApp f args⟩ :: rest)
  | _ => none

/-- Modelled from the spec: fixed-arity reduction popping the parameter
value and key. -/
def AssembleSourceSinkParam (ps : parseStack) : Option parseStack :=
  match ps with
  | ⟨_, ve, .SourceSinkParamVal v⟩ :: ⟨kb, _, .SourceSinkParamKey k⟩ :: rest =>
      some (⟨kb, ve, .SourceSinkParamAST k v⟩ :: rest)
  | _ => none

/-- Modelled from the spec: fixed-arity reduction popping the
projection list and the emitter keyword. -/
def AssembleEmitProjections (ps : parseStack) : Option parseStack :=
  match ps with
  | ⟨_, pe, .Projections prjs⟩ :: ⟨eb, _, .EmitterKw em⟩ :: rest =>
      some (⟨eb, pe, .EmitProjectionsAST em prjs⟩ :: rest)
  | _ => none

/-- Modelled from the spec: the SELECT statement reduction pops its
five clause nodes (having, grouping, filter, from, projections,
top-down) and builds the statement field-by-field. -/
def AssembleSelect (ps : parseStack) : Option parseStack :=
  match ps with
  | ⟨_, he, .HavingClause h⟩ :: ⟨_, _, .GroupingClause g⟩ :: ⟨_, _, .FilterClause f⟩ ::
      ⟨_, _, .FromClause fr⟩ :: ⟨pb, _, .Projections prjs⟩ :: rest =>
      some (⟨pb, he, .SelectStmt prjs fr f g h⟩ :: rest)
  | _ => none

/-- Modelled from the spec: CREATE STREAM ... AS SELECT pops six
component nodes. -/
def AssembleCreateStreamAsSelect (ps : parseStack) : Option parseStack :=
  match ps with
  | ⟨_, he, .HavingClause h⟩ :: ⟨_, _, .GroupingClause g⟩ :: ⟨_, _, .FilterClause f⟩ ::
      ⟨_, _, .WindowedFromClause w⟩ :: ⟨_, _, .EmitProjectionsAST em prjs⟩ ::
      ⟨rb, _, .Relation r⟩ :: rest =>
      some (⟨rb, he, .CreateStreamAsSelectStmt r (.EmitProjectionsAST em prjs) w f g h⟩ :: rest)
  | _ => none

/-- Modelled from the spec: CREATE SOURCE pops specs, type and name. -/
def AssembleCreateSource (ps : parseStack) : Option parseStack :=
  match ps with
  | ⟨_, se, .SourceSinkSpecsAST prms⟩ :: ⟨_, _, .SourceSinkType t⟩ ::
      ⟨nb, _, .SourceSinkName n⟩ :: rest =>
      some (⟨nb, se, .CreateSourceStmt n t prms⟩ :: rest)
  | _ => none

/-- Modelled from the spec: CREATE SINK pops specs, type and name. -/
def AssembleCreateSink (ps : parseStack) : Option parseStack :=
  match ps with
  | ⟨_, se, .SourceSinkSpecsAST prms⟩ :: ⟨_, _, .SourceSinkType t⟩ ::
      ⟨nb, _, .SourceSinkName n⟩ :: rest =>
      some (⟨nb, se, .CreateSinkStmt n t prms⟩ :: rest)
  | _ => none

/-- Modelled from the spec: CREATE STREAM ... FROM SOURCE pops the
source name and the stream relation. -/
def AssembleCreateStreamFromSource (ps : parseStack) : Option parseStack :=
  match ps with
  | ⟨_, ne, .SourceSinkName n⟩ :: ⟨rb, _, .Relation r⟩ :: rest =>
      some (⟨rb, ne, .CreateStreamFromSourceStmt r n⟩ :: rest)
  | _ => none

/-- Modelled from the spec: CREATE STREAM ... FROM type SOURCE pops the
specs, the source type and the stream relation. -/
def AssembleCreateStreamFromSourceExt (ps : parseStack) : Option parseStack :=
  match ps with
  | ⟨_, se, .SourceSinkSpecsAST prms⟩ :: ⟨_, _, .SourceSinkType t⟩ ::
      ⟨rb, _, .Relation r⟩ :: rest =>
      some (⟨rb, se, .CreateStreamFromSourceExtStmt r t prms⟩ :: rest)
  | _ => none

/-- Modelled from the spec: INSERT INTO pops the assembled SELECT
statement and the sink name. -/
def AssembleInsertIntoSelect (ps : parseStack) : Option parseStack :=
  match ps with
  | ⟨_, se, .SelectStmt prjs fr f g h⟩ :: ⟨nb, _, .SourceSinkName n⟩ :: rest =>
      some (⟨nb, se, .InsertIntoSelectStmt n (.SelectStmt prjs fr f g h)⟩ :: rest)
  | _ => none

/-- The semantic actions a grammar rule can queue: a `PushComponent`
call or one of the `Assemble*` reductions, with the `(begin, end)` span
arguments where the grammar passes them. -/
inductive Action : Type
  | push (b e : Nat) (c : Component)
  | assembleBinaryOperation (b e : Nat)
  | assembleProjections (b e : Nat)
  | assembleExpressions (b e : Nat)
  | assembleFrom (b e : Nat)
  | assembleFilter (b e : Nat)
  | assembleGrouping (b e : Nat)
  | assembleHaving (b e : Nat)
  | assembleWindowedFrom (b e : Nat)
  | assembleSourceSinkSpecs (b e : Nat)
  | assembleRange
  | assembleFuncApp
  | assembleSourceSinkParam
  | assembleEmitProjections
  | assembleSelect
  | assembleCreateStreamAsSelect
  | assembleCreateSource
  | assembleCreateSink
  | assembleCreateStreamFromSource
  | assembleCreateStreamFromSourceExt
  | assembleInsertIntoSelect

/-- Run one queued semantic action against the stack; `none` models a
Go panic (internal invariant violation). -/
def applyAction : Action → parseStack → Option parseStack
  | .push b e c, ps => some (⟨b, e, c⟩ :: ps)
  | .assembleBinaryOperation b e, ps => AssembleBinaryOperation ps b e
  | .assembleProjections b e, ps => AssembleProjections ps b e
  | .assembleExpressions b e, ps => AssembleExpressions ps b e
  | .assembleFrom b e, ps => AssembleFrom ps b e
  | .assembleFilter b e, ps => AssembleFilter ps b e
  | .assembleGrouping b e, ps => AssembleGrouping ps b e
  | .assembleHaving b e, ps => AssembleHaving ps b e
  | .assembleWindowedFrom b e, ps => AssembleWindowedFrom ps b e
  | .assembleSourceSinkSpecs b e, ps => AssembleSourceSinkSpecs ps b e
  | .assembleRange, ps => AssembleRange ps
  | .assembleFuncApp, ps => AssembleFuncApp ps
  | .assembleSourceSinkParam, ps => AssembleSourceSinkParam ps
  | .assembleEmitProjections, ps => AssembleEmitProjections ps
  | .assembleSelect, ps => AssembleSelect ps
  | .assembleCreateStreamAsSelect, ps => AssembleCreateStreamAsSelect ps
  | .assembleCreateSource, ps => AssembleCreateSource ps
  | .assembleCreateSink, ps => AssembleCreateSink ps
  | .assembleCreateStreamFromSource, ps => AssembleCreateStreamFromSource ps
  | .assembleCreateStreamFromSourceExt, ps => AssembleCreateStreamFromSourceExt ps
  | .assembleInsertIntoSelect, ps => AssembleInsertIntoSelect ps

/-- Run the queued actions in match order. -/
def runActions : List Action → parseStack → Option parseStack
  | [], ps => some ps
  | a :: rest, ps =>
      match applyAction a ps with
      | some ps2 => runActions rest ps2
      | none => none

/-! ## The PEG rule embedding

A rule is a function from the input (list of runes) and a start
position to `none` (the rule does not match there) or `some (pos,
actions)`: the position after the match together with the semantic
actions the match queues.  This mirrors the pointlander/peg engine,
where actions of abandoned alternatives are rolled back and the
surviving actions run in order after the parse.  -/

/-- The type of an embedded PEG rule. -/
abbrev P := List Char → Nat → Option (Nat × List Action)

/-- Sequence of two rules (PEG juxtaposition). -/
def pSeq (p q : P) : P := fun inp pos =>
  match p inp pos with
  | none => none
  | some (pos2, as) =>
      match q inp pos2 with
      | none => none
      | some (pos3, bs) => some (pos3, as ++ bs)

/-- Ordered choice (PEG `/`): the second alternative runs only when the
first fails, and a failed alternative leaves no actions behind. -/
def pAlt (p q : P) : P := fun inp pos =>
  match p inp pos with
  | some r => some r
  | none => q inp pos

/-- PEG option (`e?`). -/
def pOpt (p : P) : P := fun inp pos =>
  match p inp pos with
  | some r => some r
  | none => some (pos, [])

/-- PEG negative end-of-input lookahead (`!.`): succeeds without
consuming exactly when no character remains. -/
def pNotAny : P := fun inp pos =>
  match inp[pos]? with
  | some _ => none
  | none => some (pos, [])

/-- Queue one semantic action (a `{ ... }` block in the grammar). -/
def pAct (a : Action) : P := fun _ pos => some (pos, [a])

/-- Match one character satisfying a predicate (a PEG character class). -/
def pClassP (f : Char → Bool) : P := fun inp pos =>
  match inp[pos]? with
  | some c => if f c then some (pos + 1, []) else none
  | none => none

/-- Greedily match one or more characters of a class (`[...]+`). -/
def pMany1 (f : Char → Bool) : P := fun inp pos =>
  match inp[pos]? with
  | some c =>
      if f c then some (pos + 1 + ((inp.drop (pos + 1)).takeWhile f).length, [])
      else none
  | none => none

/-- Match a literal character. -/
def pCh (c : Char) : P := pClassP (fun d => d = c)

/-- Match a literal string prefix; returns the number of characters
consumed. -/
def litAt : List Char → List Char → Option Nat
  | [], _ => some 0
  | c :: cs, d :: ds => if c = d then (litAt cs ds).map (· + 1) else none
  | _ :: _, [] => none

/-- Match a double-quoted literal of the grammar (its exact characters). -/
def pLit (lit : List Char) : P := fun inp pos =>
  (litAt lit (inp.drop pos)).map fun n => (pos + n, [])

/-- Bounded iteration for PEG `(...)*` over items that consume input;
the fuel `inp.length + 1` dominates the number of possible iterations. -/
def pStarGo (p : P) (inp : List Char) : Nat → Nat → Option (Nat × List Action)
  | 0, pos => some (pos, [])
  | n + 1, pos =>
      match p inp pos with
      | none => some (pos, [])
      | some (pos2, as) =>
          if pos < pos2 then
            match pStarGo p inp n pos2 with
            | some (pos3, bs) => some (pos3, as ++ bs)
            | none => none
          else some (pos, as)

/-- PEG star (`e*`); every star in bql.peg iterates an item that
consumes at least one character, so the fuel bound is never reached. -/
def pStar (p : P) : P := fun inp pos => pStarGo p inp (inp.length + 1) pos

/-- Wrap a rule body in `< ... > { action(begin, end) }`: the action is
queued after the body's own actions, with the matched span. -/
def pCapture (mk : Nat → Nat → Action) (p : P) : P := fun inp pos =>
  match p inp pos with
  | none => none
  | some (pos2, as) => some (pos2, as ++ [mk pos pos2])

/-- Wrap a leaf rule `< body > { PushComponent(begin, end, mk substr) }`
where `substr` is the matched text. -/
def pLeaf (mk : List Char → Component) (p : P) : P := fun inp pos =>
  match p inp pos with
  | none => none
  | some (pos2, as) =>
      some (pos2, as ++ [Action.push pos pos2 (mk ((inp.drop pos).take (pos2 - pos)))])

/-- Wrap a leaf rule pushing a fixed component. -/
def pLeafC (c : Component) (p : P) : P := fun inp pos =>
  match p inp pos with
  | none => none
  | some (pos2, as) => some (pos2, as ++ [Action.push pos pos2 c])

/-! ## Lexical atoms -/

/-- The single-quote character (the string literal delimiter). -/
def squote : Char := Char.ofNat 39

/-- `[[a-z]]` of pointlander/peg: an ASCII letter of either case. -/
def isAlphaCI (c : Char) : Bool :=
  (decide (Char.ofNat 97 ≤ c) && decide (c ≤ Char.ofNat 122)) ||
  (decide (Char.ofNat 65 ≤ c) && decide (c ≤ Char.ofNat 90))

/-- `[0-9]`. -/
def isDigitC (c : Char) : Bool :=
  decide (Char.ofNat 48 ≤ c) && decide (c ≤ Char.ofNat 57)

/-- `[[a-z]] / [0-9] / '_'`: the continuation characters of `ident`. -/
def isIdentRest (c : Char) : Bool :=
  isAlphaCI c || isDigitC c || decide (c = Char.ofNat 95)

/-- The whitespace characters of the `sp` rule. -/
def isSpChar (c : Char) : Bool :=
  decide (c = Char.ofNat 32) || decide (c = Char.ofNat 9) || decide (c = Char.ofNat 10)

/-- `sp <- (' ' / '\t' / '\n')*`. -/
def spP : P := fun inp pos =>
  some (pos + ((inp.drop pos).takeWhile isSpChar).length, [])

/-- `ident <- [[a-z]] ([[a-z]] / [0-9] / '_')*`. -/
def identP : P := fun inp pos =>
  match inp[pos]? with
  | some c =>
      if isAlphaCI c then
        some (pos + 1 + ((inp.drop (pos + 1)).takeWhile isIdentRest).length, [])
      else none
  | none => none

/-- Modelled from the spec (ast.go's integer literal constructor is not
in the given sources): digit characters to their decimal value. -/
def digitsVal (l : List Char) : Nat :=
  l.foldl (fun a c => a * 10 + (c.toNat - 48)) 0

/-- Modelled from the spec: `NewNumericLiteral` parses the matched
`-?[0-9]+` text into an integer node. -/
def NewNumericLiteral (raw : List Char) : Component :=
  match raw with
  | c :: ds =>
      if c = Char.ofNat 45 then .NumericLiteral (-(digitsVal ds : Int))
      else .NumericLiteral (digitsVal (c :: ds))
  | [] => .NumericLiteral 0

/-- Replace each escaped `''` by a single quote. -/
def unescapeQuotes : List Char → List Char
  | c :: d :: rest =>
      if c = squote then
        if d = squote then squote :: unescapeQuotes rest
        else c :: unescapeQuotes (d :: rest)
      else c :: unescapeQuotes (d :: rest)
  | [c] => [c]
  | [] => []

/-- Modelled from the spec: `NewStringLiteral` takes the matched text
including the delimiters, removes them, and replaces each embedded `''`
by a single quote. -/
def NewStringLiteral (raw : List Char) : Component :=
  .StringLiteral (unescapeQuotes (raw.drop 1).dropLast)

/-- Consumed length of the string-literal body `("''" / !"'" .)*`
starting at the given remaining input. -/
def strBodyLen : List Char → Nat
  | c :: d :: rest =>
      if c = squote then
        if d = squote then 2 + strBodyLen rest else 0
      else 1 + strBodyLen (d :: rest)
  | [c] => if c = squote then 0 else 1
  | [] => 0

/-- `StringLiteral <- < ['] ("''" / !"'" .)* ['] >` with its
`PushComponent` action. -/
def stringLiteralP : P := fun inp pos =>
  match inp[pos]? with
  | some c =>
      if c = squote then
        match inp[pos + 1 + strBodyLen (inp.drop (pos + 1))]? with
        | some d =>
            if d = squote then
              some (pos + 1 + strBodyLen (inp.drop (pos + 1)) + 1,
                [Action.push pos (pos + 1 + strBodyLen (inp.drop (pos + 1)) + 1)
                  (NewStringLiteral
                    ((inp.drop pos).take (1 + strBodyLen (inp.drop (pos + 1)) + 1)))])
            else none
        | none => none
      else none
  | none => none

/-! ## Leaf token rules (the `PushComponent` rules of bql.peg) -/

/-- `Relation <- < ident >`. -/
def relationP : P := pLeaf Component.Relation identP

/-- `ColumnName <- < ident >`. -/
def columnNameP : P := pLeaf Component.ColumnName identP

/-- `NumericLiteral <- < '-'? [0-9]+ >`. -/
def numericLiteralP : P :=
  pLeaf NewNumericLiteral (pSeq (pOpt (pCh '-')) (pMany1 isDigitC))

/-- `FloatLiteral <- < '-'? [0-9]+ '.' [0-9]+ >`. -/
def floatLiteralP : P :=
  pLeaf Component.FloatLiteral
    (pSeq (pOpt (pCh '-')) (pSeq (pMany1 isDigitC) (pSeq (pCh '.') (pMany1 isDigitC))))

/-- `Function <- < ident >`. -/
def functionP : P := pLeaf Component.FuncName identP

/-- `TRUE <- < "true" >`. -/
def trueLitP : P := pLeafC (.BoolLiteral true) (pLit ("true".toList))

/-- `FALSE <- < "false" >`. -/
def falseLitP : P := pLeafC (.BoolLiteral false) (pLit ("false".toList))

/-- `BooleanLiteral <- TRUE / FALSE`. -/
def booleanLiteralP : P := pAlt trueLitP falseLitP

/-- `Wildcard <- < '*' >`. -/
def wildcardP : P := pLeafC .Wildcard (pCh '*')

/-- `ISTREAM <- < "ISTREAM" >`. -/
def istreamP : P := pLeafC (.EmitterKw .Istream) (pLit ("ISTREAM".toList))

/-- `DSTREAM <- < "DSTREAM" >`. -/
def dstreamP : P := pLeafC (.EmitterKw .Dstream) (pLit ("DSTREAM".toList))

/-- `RSTREAM <- < "RSTREAM" >`. -/
def rstreamP : P := pLeafC (.EmitterKw .Rstream) (pLit ("RSTREAM".toList))

/-- `Emitter <- ISTREAM / DSTREAM / RSTREAM`. -/
def emitterP : P := pAlt istreamP (pAlt dstreamP rstreamP)

/-- `TUPLES <- < "TUPLES" >`. -/
def tuplesP : P := pLeafC (.RangeUnitKw .Tuples) (pLit ("TUPLES".toList))

/-- `SECONDS <- < "SECONDS" >`. -/
def secondsP : P := pLeafC (.RangeUnitKw .Seconds) (pLit ("SECONDS".toList))

/-- `RangeUnit <- TUPLES / SECONDS`. -/
def rangeUnitP : P := pAlt tuplesP secondsP

/-- `SourceSinkName <- < ident >`. -/
def sourceSinkNameP : P := pLeaf Component.SourceSinkName identP

/-- `SourceSinkType <- < ident >`. -/
def sourceSinkTypeP : P := pLeaf Component.SourceSinkType identP

/-- `SourceSinkParamKey <- < ident >`. -/
def sourceSinkParamKeyP : P := pLeaf Component.SourceSinkParamKey identP

/-- `SourceSinkParamVal <- < ([[a-z]] / [0-9] / '_')+ >`. -/
def sourceSinkParamValP : P := pLeaf Component.SourceSinkParamVal (pMany1 isIdentRest)

/-- `Or <- < "OR" >`. -/
def orOpP : P := pLeafC (.Op .Or) (pLit ("OR".toList))

/-- `And <- < "AND" >`. -/
def andOpP : P := pLeafC (.Op .And) (pLit ("AND".toList))

/-- `Equal <- < "=" >`. -/
def equalP : P := pLeafC (.Op .Equal) (pCh '=')

/-- `Less <- < "<" >`. -/
def lessP : P := pLeafC (.Op .Less) (pCh '<')

/-- `LessOrEqual <- < "<=" >`. -/
def lessOrEqualP : P := pLeafC (.Op .LessOrEqual) (pLit ("<=".toList))

/-- `Greater <- < ">" >`. -/
def greaterP : P := pLeafC (.Op .Greater) (pCh '>')

/-- `GreaterOrEqual <- < ">=" >`. -/
def greaterOrEqualP : P := pLeafC (.Op .GreaterOrEqual) (pLit (">=".toList))

/-- `NotEqual <- < "!=" / "<>" >`: both spellings are captured by the
same rule and push the same `NotEqual` operator tag. -/
def notEqualP : P := pLeafC (.Op .NotEqual) (pAlt (pLit ("!=".toList)) (pLit ("<>".toList)))

/-- `Plus <- < "+" >`. -/
def plusOpP : P := pLeafC (.Op .Plus) (pCh '+')

/-- `Minus <- < "-" >`. -/
def minusOpP : P := pLeafC (.Op .Minus) (pCh '-')

/-- `Multiply <- < "*" >`. -/
def multiplyP : P := pLeafC (.Op .Multiply) (pCh '*')

/-- `Divide <- < "/" >`. -/
def divideP : P := pLeafC (.Op .Divide) (pCh '/')

/-- `Modulo <- < "%" >`. -/
def moduloP : P := pLeafC (.Op .Modulo) (pCh '%')

/-- `ComparisonOp <- Equal / NotEqual / LessOrEqual / Less /
GreaterOrEqual / Greater / NotEqual` (the duplicate final `NotEqual`
alternative is kept exactly as in the grammar). -/
def comparisonOpP : P :=
  pAlt equalP (pAlt notEqualP (pAlt lessOrEqualP (pAlt lessP
    (pAlt greaterOrEqualP (pAlt greaterP notEqualP)))))

/-- `PlusMinusOp <- Plus / Minus`. -/
def plusMinusOpP : P := pAlt plusOpP minusOpP

/-- `MultDivOp <- Multiply / Divide / Modulo`. -/
def multDivOpP : P := pAlt multiplyP (pAlt divideP moduloP)

/-- `Literal <- FloatLiteral / NumericLiteral / StringLiteral`: the
float alternative is tried first. -/
def literalP : P := pAlt floatLiteralP (pAlt numericLiteralP stringLiteralP)

/-! ## Expression precedence ladder

`Expression` recurses into itself only through the parenthesized
base-expression alternative and through function-call arguments, both
of which consume at least one character first, so a fuel of
`inp.length + 1` makes the embedded functions total without changing
the language accepted.  Each ladder level is parameterized by the rule
to use for the recursive `Expression` occurrences.  -/

/-- `FuncParams <- < Expression sp (',' sp Expression)* >`. -/
def funcParamsP (rec : P) : P :=
  pCapture Action.assembleExpressions
    (pSeq rec (pSeq spP (pStar (pSeq (pCh ',') (pSeq spP rec)))))

/-- `FuncApp <- Function sp '(' sp FuncParams sp ')'`. -/
def funcAppP (rec : P) : P :=
  pSeq functionP (pSeq spP (pSeq (pCh '(') (pSeq spP (pSeq (funcParamsP rec)
    (pSeq spP (pSeq (pCh ')') (pAct .assembleFuncApp)))))))

/-- `baseExpr <- ('(' sp Expression sp ')') / BooleanLiteral / FuncApp
/ ColumnName / Wildcard / Literal`. -/
def baseExprP (rec : P) : P :=
  pAlt (pSeq (pCh '(') (pSeq spP (pSeq rec (pSeq spP (pCh ')')))))
    (pAlt booleanLiteralP (pAlt (funcAppP rec) (pAlt columnNameP (pAlt wildcardP literalP))))

/-- One level of the binary ladder: `< sub sp (op sp sub)? >` with the
`AssembleBinaryOperation(begin, end)` action — one operand of the next
tighter level, optionally followed by exactly one operator and one more
such operand. -/
def ladderLevel (sub opP : P) : P :=
  pCapture Action.assembleBinaryOperation
    (pSeq sub (pSeq spP (pOpt (pSeq opP (pSeq spP sub)))))

/-- `productExpr <- < baseExpr sp (MultDivOp sp baseExpr)? >`. -/
def productExprP (rec : P) : P := ladderLevel (baseExprP rec) multDivOpP

/-- `termExpr <- < productExpr sp (PlusMinusOp sp productExpr)? >`. -/
def termExprP (rec : P) : P := ladderLevel (productExprP rec) plusMinusOpP

/-- `comparisonExpr <- < termExpr sp (ComparisonOp sp termExpr)? >`. -/
def comparisonExprP (rec : P) : P := ladderLevel (termExprP rec) comparisonOpP

/-- `andExpr <- < comparisonExpr sp (And sp comparisonExpr)? >`. -/
def andExprP (rec : P) : P := ladderLevel (comparisonExprP rec) andOpP

/-- `orExpr <- < andExpr sp (Or sp andExpr)? >`. -/
def orExprP (rec : P) : P := ladderLevel (andExprP rec) orOpP

/-- `Expression <- orExpr`, with fuel for the recursive occurrences. -/
def expressionFuel : Nat → P
  | 0 => fun _ _ => none
  | n + 1 => orExprP (expressionFuel n)

/-- The `Expression` rule with sufficient fuel for any input. -/
def ExpressionP : P := fun inp pos => expressionFuel (inp.length + 1) inp pos

/-! ## Clauses -/

/-- `Projections <- < Projection sp (',' sp Projection)* >` where
`Projection <- Expression`. -/
def projectionsP : P :=
  pCapture Action.assembleProjections
    (pSeq ExpressionP (pSeq spP (pStar (pSeq (pCh ',') (pSeq spP ExpressionP)))))

/-- `Relations <- Relation sp (',' sp Relation)*`. -/
def relationsP : P :=
  pSeq relationP (pSeq spP (pStar (pSeq (pCh ',') (pSeq spP relationP))))

/-- `Range <- NumericLiteral sp RangeUnit`. -/
def rangeP : P := pSeq numericLiteralP (pSeq spP (pSeq rangeUnitP (pAct .assembleRange)))

/-- `WindowedFrom <- < ("FROM" sp Relations sp '[' sp "RANGE" sp Range
sp ']')? >`; the assembly action always runs, even on an empty match. -/
def windowedFromP : P :=
  pCapture Action.assembleWindowedFrom
    (pOpt (pSeq (pLit ("FROM".toList)) (pSeq spP (pSeq relationsP (pSeq spP
      (pSeq (pCh '[') (pSeq spP (pSeq (pLit ("RANGE".toList)) (pSeq spP
        (pSeq rangeP (pSeq spP (pCh ']'))))))))))))

/-- `From <- < ("FROM" sp Relations)? >`; always runs its action. -/
def fromP : P :=
  pCapture Action.assembleFrom (pOpt (pSeq (pLit ("FROM".toList)) (pSeq spP relationsP)))

/-- `Filter <- < ("WHERE" sp Expression)? >`; always runs its action. -/
def filterP : P :=
  pCapture Action.assembleFilter (pOpt (pSeq (pLit ("WHERE".toList)) (pSeq spP ExpressionP)))

/-- `GroupList <- Expression sp (',' sp Expression)*`. -/
def groupListP : P :=
  pSeq ExpressionP (pSeq spP (pStar (pSeq (pCh ',') (pSeq spP ExpressionP))))

/-- `Grouping <- < ("GROUP" sp "BY" sp GroupList)? >`; always runs its
action. -/
def groupingP : P :=
  pCapture Action.assembleGrouping
    (pOpt (pSeq (pLit ("GROUP".toList)) (pSeq spP (pSeq (pLit ("BY".toList))
      (pSeq spP groupListP)))))

/-- `Having <- < ("HAVING" sp Expression)? >`; always runs its action. -/
def havingP : P :=
  pCapture Action.assembleHaving (pOpt (pSeq (pLit ("HAVING".toList)) (pSeq spP ExpressionP)))

/-- `SourceSinkParam <- SourceSinkParamKey '=' SourceSinkParamVal`. -/
def sourceSinkParamP : P :=
  pSeq sourceSinkParamKeyP (pSeq (pCh '=') (pSeq sourceSinkParamValP
    (pAct .assembleSourceSinkParam)))

/-- `SourceSinkSpecs <- < ("WITH" sp SourceSinkParam sp (',' sp
SourceSinkParam)*)? >`; always runs its action. -/
def sourceSinkSpecsP : P :=
  pCapture Action.assembleSourceSinkSpecs
    (pOpt (pSeq (pLit ("WITH".toList)) (pSeq spP (pSeq sourceSinkParamP
      (pSeq spP (pStar (pSeq (pCh ',') (pSeq spP sourceSinkParamP))))))))

/-- `EmitProjections <- Emitter sp '(' Projections ')'`. -/
def emitProjectionsP : P :=
  pSeq emitterP (pSeq spP (pSeq (pCh '(') (pSeq projectionsP (pSeq (pCh ')')
    (pAct .assembleEmitProjections)))))

/-! ## Statements -/

/-- `SelectStmt <- "SELECT" sp Projections sp From sp Filter sp
Grouping sp Having sp`. -/
def selectStmtP : P :=
  pSeq (pLit ("SELECT".toList)) (pSeq spP (pSeq projectionsP (pSeq spP (pSeq fromP
    (pSeq spP (pSeq filterP (pSeq spP (pSeq groupingP (pSeq spP (pSeq havingP
      (pSeq spP (pAct .assembleSelect))))))))))))

/-- `CreateStreamAsSelectStmt <- "CREATE" sp "STREAM" sp Relation sp
"AS" sp "SELECT" sp EmitProjections sp WindowedFrom sp Filter sp
Grouping sp Having sp`. -/
def createStreamAsSelectStmtP : P :=
  pSeq (pLit ("CREATE".toList)) (pSeq spP (pSeq (pLit ("STREAM".toList)) (pSeq spP
    (pSeq relationP (pSeq spP (pSeq (pLit ("AS".toList)) (pSeq spP
      (pSeq (pLit ("SELECT".toList)) (pSeq spP (pSeq emitProjectionsP (pSeq spP
        (pSeq windowedFromP (pSeq spP (pSeq filterP (pSeq spP (pSeq groupingP
          (pSeq spP (pSeq havingP (pSeq spP (pAct .assembleCreateStreamAsSelect))))))))))))))))))))

/-- `CreateSourceStmt <- "CREATE" sp "SOURCE" sp SourceSinkName sp
"TYPE" sp SourceSinkType sp SourceSinkSpecs`. -/
def createSourceStmtP : P :=
  pSeq (pLit ("CREATE".toList)) (pSeq spP (pSeq (pLit ("SOURCE".toList)) (pSeq spP
    (pSeq sourceSinkNameP (pSeq spP (pSeq (pLit ("TYPE".toList)) (pSeq spP
      (pSeq sourceSinkTypeP (pSeq spP (pSeq sourceSinkSpecsP
        (pAct .assembleCreateSource)))))))))))

/-- `CreateSinkStmt <- "CREATE" sp "SINK" sp SourceSinkName sp "TYPE"
sp SourceSinkType sp SourceSinkSpecs`. -/
def createSinkStmtP : P :=
  pSeq (pLit ("CREATE".toList)) (pSeq spP (pSeq (pLit ("SINK".toList)) (pSeq spP
    (pSeq sourceSinkNameP (pSeq spP (pSeq (pLit ("TYPE".toList)) (pSeq spP
      (pSeq sourceSinkTypeP (pSeq spP (pSeq sourceSinkSpecsP
        (pAct .assembleCreateSink)))))))))))

/-- `CreateStreamFromSourceStmt <- "CREATE" sp "STREAM" sp Relation sp
"FROM" sp "SOURCE" sp SourceSinkName`. -/
def createStreamFromSourceStmtP : P :=
  pSeq (pLit ("CREATE".toList)) (pSeq spP (pSeq (pLit ("STREAM".toList)) (pSeq spP
    (pSeq relationP (pSeq spP (pSeq (pLit ("FROM".toList)) (pSeq spP
      (pSeq (pLit ("SOURCE".toList)) (pSeq spP (pSeq sourceSinkNameP
        (pAct .assembleCreateStreamFromSource)))))))))))

/-- `CreateStreamFromSourceExtStmt <- "CREATE" sp "STREAM" sp Relation
sp "FROM" sp SourceSinkType sp "SOURCE" sp SourceSinkSpecs`. -/
def createStreamFromSourceExtStmtP : P :=
  pSeq (pLit ("CREATE".toList)) (pSeq spP (pSeq (pLit ("STREAM".toList)) (pSeq spP
    (pSeq relationP (pSeq spP (pSeq (pLit ("FROM".toList)) (pSeq spP
      (pSeq sourceSinkTypeP (pSeq spP (pSeq (pLit ("SOURCE".toList)) (pSeq spP
        (pSeq sourceSinkSpecsP (pAct .assembleCreateStreamFromSourceExt)))))))))))))

/-- `InsertIntoSelectStmt <- "INSERT" sp "INTO" sp SourceSinkName sp
SelectStmt`. -/
def insertIntoSelectStmtP : P :=
  pSeq (pLit ("INSERT".toList)) (pSeq spP (pSeq (pLit ("INTO".toList)) (pSeq spP
    (pSeq sourceSinkNameP (pSeq spP (pSeq selectStmtP
      (pAct .assembleInsertIntoSelect)))))))

/-- The ordered statement alternation of the `Statement` rule, without
the final `!.`. -/
def statementBodyP : P :=
  pAlt selectStmtP (pAlt createStreamAsSelectStmtP (pAlt createSourceStmtP
    (pAlt createStreamFromSourceStmtP (pAlt createStreamFromSourceExtStmtP
      (pAlt createSinkStmtP insertIntoSelectStmtP)))))

/-- `Statement <- (SelectStmt / ... / InsertIntoSelectStmt) !.`: a
statement must consume the entire input. -/
def statementP : P := pSeq statementBodyP pNotAny

/-- The two error categories: a user-facing syntax error (the grammar
did not match) and an internal invariant violation (a reduction found
the stack in an unexpected shape — a Go panic). -/
inductive BQLError : Type
  | synErr
  | invErr
deriving DecidableEq, Repr

/-- Run an embedded rule on a whole input: match from position 0, then
execute the queued semantic actions on an empty parse stack and return
the payload of the top fragment. -/
def runParse (p : P) (inp : List Char) : Except BQLError Component :=
  match p inp 0 with
  | none => .error .synErr
  | some (_, acts) =>
      match runActions acts [] with
      | some (f :: _) => .ok f.comp
      | _ => .error .invErr

/-- The public entry point: parse one BQL statement. -/
def parseBQL (inp : List Char) : Except BQLError Component := runParse statementP inp

/-- Parse a full input as a single expression (used to state the
expression-level properties). -/
def parseExpr (inp : List Char) : Except BQLError Component :=
  runParse (pSeq ExpressionP pNotAny) inp

/-- Whether a component is an operator tag. -/
def isOpComp : Component → Bool
  | .Op _ => true
  | _ => false

/-- This definition follows the spec's words, for comparison with the
grammar's `ident` rule: the claimed identifier form `[a-z][a-z0-9_]*`
(lowercase-only start and continuation letters). -/
def specIdentRegex : List Char → Bool
  | [] => false
  | c :: rest =>
      (decide (Char.ofNat 97 ≤ c) && decide (c ≤ Char.ofNat 122)) &&
      rest.all (fun d =>
        (decide (Char.ofNat 97 ≤ d) && decide (d ≤ Char.ofNat 122)) || isDigitC d ||
        decide (d = Char.ofNat 95))

/-- The amended identifier form `[a-zA-Z][a-zA-Z0-9_]*` (either-case
letters, as matched by the case-insensitive class `[[a-z]]`). -/
def amendedIdentRegex : List Char → Bool
  | [] => false
  | c :: rest => isAlphaCI c && rest.all isIdentRest

/-- Double each quote of a string value: the inverse direction of the
`''` escape, used to quantify over all well-formed string literals. -/
def escapeQuotes : List Char → List Char
  | [] => []
  | c :: rest =>
      if c = squote then c :: c :: escapeQuotes rest else c :: escapeQuotes rest

/-! ## Helper lemmas -/

theorem inSpan_zero_width (b : Nat) (f : Fragment) : inSpan b b f = false := by
  simp only [inSpan, Bool.and_eq_false_iff, decide_eq_false_iff_not, not_lt, not_le]
  omega

theorem collect_zero_width (ps : parseStack) (b : Nat) : collect ps b b = [] := by
  cases ps with
  | nil => rfl
  | cons f t =>
      simp [collect, List.takeWhile_cons, inSpan_zero_width]

theorem dropSpan_zero_width (ps : parseStack) (b : Nat) : dropSpan ps b b = ps := by
  cases ps with
  | nil => rfl
  | cons f t =>
      simp [dropSpan, List.dropWhile_cons, inSpan_zero_width]

theorem takeWhile_length_eq_iff_all (f : Char → Bool) (l : List Char) :
    ((l.takeWhile f).length = l.length) ↔ l.all f = true := by
  induction l with
  | nil => simp
  | cons c t ih =>
      by_cases h : f c
      · simp [List.takeWhile_cons, h, ih]
      · have hne : ¬ ((0 : Nat) = t.length + 1) := by omega
        simp [List.takeWhile_cons, h, hne]

/-! ## Claims -/

/-- C1: for every parse stack and target span, the binary-operation
reduction is a passthrough with exactly one fragment in the span,
builds a binary node with left/op/right in original left-to-right order
from exactly three fragments of shape (operand, operator, operand), and
signals an internal invariant violation (modelled as `none`) with any
other count or with three fragments of the wrong payload shape. -/
theorem C1_assembleBinaryOperation_arity (ps : parseStack) (b e : Nat) :
    (∀ x, collect ps b e = [x] →
      AssembleBinaryOperation ps b e = some (⟨b, e, x⟩ :: dropSpan ps b e))
    ∧ (∀ l o r, collect ps b e = [l, Component.Op o, r] →
      isExpr l = true → isExpr r = true →
      AssembleBinaryOperation ps b e =
        some (⟨b, e, .BinaryOp o l r⟩ :: dropSpan ps b e))
    ∧ ((collect ps b e).length ≠ 1 → (collect ps b e).length ≠ 3 →
      AssembleBinaryOperation ps b e = none)
    ∧ (∀ l c r, collect ps b e = [l, c, r] →
      (isOpComp c && isExpr l && isExpr r) = false →
      AssembleBinaryOperation ps b e = none) := by
  refine ⟨?_, ?_, ?_, ?_⟩
  · intro x h
    simp [AssembleBinaryOperation, h]
  · intro l o r h hl hr
    simp [AssembleBinaryOperation, h, hl, hr]
  · intro h1 h3
    unfold AssembleBinaryOperation
    rcases hc : collect ps b e with _ | ⟨x, _ | ⟨y, _ | ⟨z, _ | ⟨w, tl⟩⟩⟩⟩
    · rfl
    · exact absurd (by rw [hc]; rfl) h1
    · cases y <;> rfl
    · exact absurd (by rw [hc]; rfl) h3
    · cases y <;> rfl
  · intro l c r h hbad
    unfold AssembleBinaryOperation
    rw [h]
    cases c <;> simp_all [isOpComp]

/-- C1 witness: the scenarios of the Go test file
`TestAssembleBinaryOperation`, derived from the theorem at concrete
stacks. -/
theorem C1_assembleBinaryOperation_arity_witness :
    AssembleBinaryOperation
        [⟨2, 3, .ColumnName ['a']⟩, ⟨0, 2, .Raw ("PRE".toList)⟩] 2 3 =
      some [⟨2, 3, .ColumnName ['a']⟩, ⟨0, 2, .Raw ("PRE".toList)⟩]
    ∧ AssembleBinaryOperation
        [⟨4, 5, .ColumnName ['b']⟩, ⟨3, 4, .Op .Plus⟩, ⟨2, 3, .ColumnName ['a']⟩,
         ⟨0, 2, .Raw ("PRE".toList)⟩] 2 5 =
      some [⟨2, 5, .BinaryOp .Plus (.ColumnName ['a']) (.ColumnName ['b'])⟩,
            ⟨0, 2, .Raw ("PRE".toList)⟩]
    ∧ AssembleBinaryOperation [⟨2, 3, .ColumnName ['a']⟩] 4 5 = none
    ∧ AssembleBinaryOperation
        [⟨6, 7, .ColumnName ['c']⟩, ⟨2, 3, .ColumnName ['a']⟩] 2 7 = none
    ∧ AssembleBinaryOperation
        [⟨6, 7, .ColumnName ['c']⟩, ⟨4, 5, .ColumnName ['b']⟩,
         ⟨2, 3, .ColumnName ['a']⟩] 2 7 = none
    ∧ AssembleBinaryOperation
        [⟨7, 8, .ColumnName ['c']⟩, ⟨5, 6, .Op .Plus⟩, ⟨4, 5, .ColumnName ['b']⟩,
         ⟨2, 3, .ColumnName ['a']⟩] 2 8 = none :=
  ⟨(C1_assembleBinaryOperation_arity _ 2 3).1 _ rfl,
   (C1_assembleBinaryOperation_arity _ 2 5).2.1 _ _ _ rfl rfl rfl,
   (C1_assembleBinaryOperation_arity _ 4 5).2.2.1 (by decide) (by decide),
   (C1_assembleBinaryOperation_arity _ 2 7).2.2.1 (by decide) (by decide),
   (C1_assembleBinaryOperation_arity _ 2 7).2.2.2 _ _ _ rfl rfl,
   (C1_assembleBinaryOperation_arity _ 2 8).2.2.1 (by decide) (by decide)⟩

/-- C2: statements with absent optional clauses still run the clause
reductions on the zero-length span, so the resulting AST carries an
explicit empty marker for each optional clause rather than omitting
the node; and each optional-clause reduction applied to an empty span
pushes its marker on any stack. -/
theorem C2_emptyClauseMarkers :
    parseBQL ("SELECT * FROM s".toList) =
      .ok (.SelectStmt [.Wildcard] (.Present [['s']]) .Empty .Empty .Empty)
    ∧ parseBQL ("SELECT a".toList) =
      .ok (.SelectStmt [.ColumnName ['a']] .Empty .Empty .Empty .Empty)
    ∧ parseBQL ("CREATE STREAM x AS SELECT ISTREAM(a)".toList) =
      .ok (.CreateStreamAsSelectStmt ['x']
        (.EmitProjectionsAST .Istream [.ColumnName ['a']]) .Empty .Empty .Empty .Empty)
    ∧ (∀ ps b, AssembleFrom ps b b = some (⟨b, b, .FromClause .Empty⟩ :: ps))
    ∧ (∀ ps b, AssembleFilter ps b b = some (⟨b, b, .FilterClause .Empty⟩ :: ps))
    ∧ (∀ ps b, AssembleGrouping ps b b = some (⟨b, b, .GroupingClause .Empty⟩ :: ps))
    ∧ (∀ ps b, AssembleHaving ps b b = some (⟨b, b, .HavingClause .Empty⟩ :: ps))
    ∧ (∀ ps b, AssembleWindowedFrom ps b b =
        some (⟨b, b, .WindowedFromClause .Empty⟩ :: ps)) := by
  refine ⟨rfl, rfl, rfl, ?_, ?_, ?_, ?_, ?_⟩ <;>
    intro ps b <;>
    simp [AssembleFrom, AssembleFilter, AssembleGrouping, AssembleHaving,
      AssembleWindowedFrom, collect_zero_width]

/-- C3: each binary ladder level matches one operand of the tighter
level followed by at most one operator application; the spec's example
parses with OR outermost, an AND/comparison combination on each side,
and `+` binding tighter than `=`; chaining two operator applications on
the same level without parentheses is a syntax error, recursion being
available only through the parenthesized base expression. -/
theorem C3_precedenceLadder :
    parseBQL ("SELECT * FROM s WHERE a + 3 = b OR a = b AND b > 0".toList) =
      .ok (.SelectStmt [.Wildcard] (.Present [['s']])
        (.Present (.BinaryOp .Or
          (.BinaryOp .Equal
            (.BinaryOp .Plus (.ColumnName ['a']) (.NumericLiteral 3))
            (.ColumnName ['b']))
          (.BinaryOp .And
            (.BinaryOp .Equal (.ColumnName ['a']) (.ColumnName ['b']))
            (.BinaryOp .Greater (.ColumnName ['b']) (.NumericLiteral 0)))))
        .Empty .Empty)
    ∧ parseExpr ("a + 3 = b OR a = b AND b > 0".toList) =
      .ok (.BinaryOp .Or
        (.BinaryOp .Equal
          (.BinaryOp .Plus (.ColumnName ['a']) (.NumericLiteral 3))
          (.ColumnName ['b']))
        (.BinaryOp .And
          (.BinaryOp .Equal (.ColumnName ['a']) (.ColumnName ['b']))
          (.BinaryOp .Greater (.ColumnName ['b']) (.NumericLiteral 0))))
    ∧ parseExpr ("a OR b OR c".toList) = .error .synErr
    ∧ parseBQL ("SELECT * FROM s WHERE a OR b OR c".toList) = .error .synErr
    ∧ parseExpr ("(a OR b) OR c".toList) =
      .ok (.BinaryOp .Or (.BinaryOp .Or (.ColumnName ['a']) (.ColumnName ['b']))
        (.ColumnName ['c'])) :=
  ⟨rfl, rfl, rfl, rfl, rfl⟩

/-- C4: a top-level parse succeeds only when the statement alternation
consumed the entire input — any strictly shorter match is turned into a
syntax error by the trailing `!.`, and no AST is returned. -/
theorem C4_fullConsumption :
    (∀ inp pos acts, statementBodyP inp 0 = some (pos, acts) →
      pos < inp.length → parseBQL inp = .error .synErr)
    ∧ (∀ inp r, parseBQL inp = .ok r →
      ∃ pos acts, statementBodyP inp 0 = some (pos, acts) ∧ inp.length ≤ pos)
    ∧ parseBQL ("SELECT * FROM s;;".toList) = .error .synErr
    ∧ parseBQL ("CREATE STREAM a FROM SOURCE b;".toList) = .error .synErr := by
  refine ⟨?_, ?_, rfl, rfl⟩
  · intro inp pos acts h hlt
    have hget : inp[pos]? = some (inp.get ⟨pos, hlt⟩) := List.getElem?_eq_getElem hlt
    simp [parseBQL, runParse, statementP, pSeq, pNotAny, h, hget]
  · intro inp r h
    by_cases hb : ∃ pos acts, statementBodyP inp 0 = some (pos, acts)
    · obtain ⟨pos, acts, hba⟩ := hb
      refine ⟨pos, acts, hba, ?_⟩
      by_contra hlt
      push_neg at hlt
      have hget : inp[pos]? = some (inp.get ⟨pos, hlt⟩) := List.getElem?_eq_getElem hlt
      rw [parseBQL, runParse, statementP] at h
      simp [pSeq, pNotAny, hba, hget] at h
    · push_neg at hb
      rw [parseBQL, runParse, statementP] at h
      rcases hba : statementBodyP inp 0 with _ | ⟨pos, acts⟩
      · simp [pSeq, hba] at h
      · exact absurd hba (by simpa using hb pos acts)

/-- C4 witness: the universal parts applied at concrete inputs. -/
theorem C4_fullConsumption_witness :
    parseBQL ("CREATE STREAM a FROM SOURCE b;".toList) = .error .synErr
    ∧ (∃ pos acts, statementBodyP ("CREATE STREAM a FROM SOURCE b".toList) 0 =
        some (pos, acts) ∧ ("CREATE STREAM a FROM SOURCE b".toList).length ≤ pos) :=
  ⟨C4_fullConsumption.1 ("CREATE STREAM a FROM SOURCE b;".toList) 29
      [.push 14 15 (.Relation ['a']), .push 28 29 (.SourceSinkName ['b']),
       .assembleCreateStreamFromSource] rfl (by decide),
   C4_fullConsumption.2.1 ("CREATE STREAM a FROM SOURCE b".toList)
      (.CreateStreamFromSourceStmt ['a'] ['b']) rfl⟩

/-- C5: the float-literal alternative is tried before the integer
alternative in the `Literal` alternation, so whenever the float rule
matches, `Literal` returns exactly its result; `"3.14"` parses as one
float literal and not as integer `3` followed by a syntax error. -/
theorem C5_floatBeforeInteger :
    (∀ inp pos r, floatLiteralP inp pos = some r → literalP inp pos = some r)
    ∧ literalP ("3.14".toList) 0 =
      some (4, [.push 0 4 (.FloatLiteral ("3.14".toList))])
    ∧ parseExpr ("3.14".toList) = .ok (.FloatLiteral ("3.14".toList))
    ∧ parseBQL ("SELECT 3.14".toList) =
      .ok (.SelectStmt [.FloatLiteral ("3.14".toList)] .Empty .Empty .Empty .Empty) := by
  refine ⟨?_, rfl, rfl, rfl⟩
  intro inp pos r h
  simp [literalP, pAlt, h]

/-- C5 witness: the ordering fact applied at the concrete input. -/
theorem C5_floatBeforeInteger_witness :
    literalP ("3.14".toList) 0 =
      some (4, [.push 0 4 (.FloatLiteral ("3.14".toList))]) :=
  C5_floatBeforeInteger.1 ("3.14".toList) 0 _ rfl

/-- C6 counterexample: the grammar's `ident` rule uses the
case-insensitive class `[[a-z]]`, so the identifier `A` is accepted at
identifier positions although the claimed form `[a-z][a-z0-9_]*`
rejects it. -/
theorem C6_identCounterexample :
    identP ['A'] 0 = some (1, [])
    ∧ specIdentRegex ['A'] = false
    ∧ parseExpr ("A".toList) = .ok (.ColumnName ['A'])
    ∧ parseBQL ("SELECT * FROM S".toList) =
      .ok (.SelectStmt [.Wildcard] (.Present [['S']]) .Empty .Empty .Empty)
    ∧ specIdentRegex ['S'] = false :=
  ⟨rfl, rfl, rfl, rfl, rfl⟩

/-- C6 amended: `ident` accepts a token exactly when it matches
`[a-zA-Z][a-zA-Z0-9_]*` — it begins with an ASCII letter of either
case and continues with letters of either case, digits, or
underscores. -/
theorem C6_identAmended (s : List Char) :
    (identP s 0 = some (s.length, [])) ↔ amendedIdentRegex s = true := by
  cases s with
  | nil => simp [identP, amendedIdentRegex]
  | cons c t =>
      by_cases h : isAlphaCI c = true
      · simp only [identP, List.getElem?_cons_zero, h, if_true]
        rw [show (c :: t).drop (0 + 1) = t from rfl, List.length_cons]
        constructor
        · intro hh
          simp only [Option.some.injEq, Prod.mk.injEq, and_true] at hh
          have hlen : (t.takeWhile isIdentRest).length = t.length := by omega
          have hall := (takeWhile_length_eq_iff_all isIdentRest t).mp hlen
          simp [amendedIdentRegex, h, hall]
        · intro hh
          have hall : t.all isIdentRest = true := by
            simpa [amendedIdentRegex, h] using hh
          have hlen := (takeWhile_length_eq_iff_all isIdentRest t).mpr hall
          rw [hlen]
          simp only [Option.some.injEq, Prod.mk.injEq, and_true]
          omega
      · have hf : isAlphaCI c = false := by
          cases hcc : isAlphaCI c
          · rfl
          · exact absurd hcc h
        simp [identP, hf, amendedIdentRegex]

/-- C6 amended witness: the amended identifier form applied at a
concrete token. -/
theorem C6_identAmended_witness :
    identP ("ab_1".toList) 0 = some (4, []) ∧ amendedIdentRegex ("ab_1".toList) = true :=
  ⟨(C6_identAmended ("ab_1".toList)).mpr rfl, rfl⟩

theorem strBodyLen_escape (v : List Char) :
    strBodyLen (escapeQuotes v ++ [squote]) = (escapeQuotes v).length := by
  induction v with
  | nil => simp [escapeQuotes, strBodyLen]
  | cons c t ih =>
      by_cases h : c = squote
      · subst h
        rw [show escapeQuotes (squote :: t) = squote :: squote :: escapeQuotes t by
          simp [escapeQuotes]]
        rw [List.cons_append, List.cons_append]
        rw [show strBodyLen (squote :: squote :: (escapeQuotes t ++ [squote])) =
          2 + strBodyLen (escapeQuotes t ++ [squote]) by simp [strBodyLen]]
        rw [ih]
        simp only [List.length_cons]
        omega
      · rcases hE : escapeQuotes t ++ [squote] with _ | ⟨d, tl⟩
        · exact absurd hE (by simp)
        · rw [show escapeQuotes (c :: t) = c :: escapeQuotes t by
            simp [escapeQuotes, h]]
          rw [List.cons_append, hE, strBodyLen, if_neg h, ← hE, ih]
          simp only [List.length_cons]
          omega

theorem unescape_escape (v : List Char) : unescapeQuotes (escapeQuotes v) = v := by
  induction v with
  | nil => rfl
  | cons c t ih =>
      by_cases h : c = squote
      · subst h
        simp only [escapeQuotes, if_pos rfl]
        cases hE : escapeQuotes t with
        | nil => simp_all [unescapeQuotes]
        | cons d tl => simp_all [unescapeQuotes]
      · rw [show escapeQuotes (c :: t) = c :: escapeQuotes t by simp [escapeQuotes, h]]
        cases hE : escapeQuotes t with
        | nil =>
            have ht : t = [] := by
              cases t with
              | nil => rfl
              | cons x xs => by_cases hx : x = squote <;> simp [escapeQuotes, hx] at hE
            subst ht
            simp [unescapeQuotes]
        | cons d tl =>
            rw [unescapeQuotes, if_neg h, ← hE, ih]

/-- C7: parsing a single-quote-delimited string literal removes the
delimiters and replaces each embedded `''` by a single quote: the
`StringLiteral` rule maps the literal of any value (with its quotes
doubled) back to that value, and `'it''s'` parses to the string
literal `it's`. -/
theorem C7_stringEscaping :
    (∀ v : List Char,
      stringLiteralP (squote :: (escapeQuotes v ++ [squote])) 0 =
        some ((escapeQuotes v).length + 2,
          [.push 0 ((escapeQuotes v).length + 2) (.StringLiteral v)]))
    ∧ parseExpr ("'it''s'".toList) = .ok (.StringLiteral ("it's".toList))
    ∧ parseBQL ("SELECT 'it''s'".toList) =
      .ok (.SelectStmt [.StringLiteral ("it's".toList)] .Empty .Empty .Empty .Empty) := by
  refine ⟨?_, rfl, rfl⟩
  intro v
  have hidx : (squote :: (escapeQuotes v ++ [squote]))[1 + (escapeQuotes v).length]? =
      some squote := by
    rw [show 1 + (escapeQuotes v).length = (escapeQuotes v).length + 1 by omega]
    rw [List.getElem?_cons_succ, List.getElem?_concat_length]
  have htake : (squote :: (escapeQuotes v ++ [squote])).take
      (1 + (escapeQuotes v).length + 1) = squote :: (escapeQuotes v ++ [squote]) := by
    have hl : 1 + (escapeQuotes v).length + 1 =
        (squote :: (escapeQuotes v ++ [squote])).length := by
      simp only [List.length_cons, List.length_append, List.length_singleton,
        List.length_nil]
      omega
    rw [hl, List.take_length]
  have hnew : NewStringLiteral (squote :: (escapeQuotes v ++ [squote])) =
      .StringLiteral v := by
    simp only [NewStringLiteral, List.drop_succ_cons, List.drop_zero,
      List.dropLast_concat, unescape_escape]
  simp only [stringLiteralP, List.getElem?_cons_zero, zero_add, List.drop_succ_cons,
    List.drop_zero, strBodyLen_escape, hidx, htake, hnew]
  simp only [show ∀ n : Nat, 1 + n + 1 = n + 2 from fun n => by omega]
  simp

/-- C8: `!=` and `<>` are synonyms: the `NotEqual` token rule (and the
comparison-operator alternation) maps both spellings, in any context,
to a push of the same `NotEqual` tag over the same two-character span,
and two statements differing only in that spelling parse to
structurally identical ASTs. -/
theorem C8_notEqualSynonyms :
    (∀ rest : List Char,
      notEqualP ('!' :: '=' :: rest) 0 = some (2, [.push 0 2 (.Op .NotEqual)])
      ∧ notEqualP ('<' :: '>' :: rest) 0 = some (2, [.push 0 2 (.Op .NotEqual)])
      ∧ comparisonOpP ('!' :: '=' :: rest) 0 = some (2, [.push 0 2 (.Op .NotEqual)])
      ∧ comparisonOpP ('<' :: '>' :: rest) 0 = some (2, [.push 0 2 (.Op .NotEqual)]))
    ∧ parseBQL ("SELECT * FROM s WHERE a != b".toList) =
        parseBQL ("SELECT * FROM s WHERE a <> b".toList)
    ∧ parseBQL ("SELECT * FROM s WHERE a != b".toList) =
      .ok (.SelectStmt [.Wildcard] (.Present [['s']])
        (.Present (.BinaryOp .NotEqual (.ColumnName ['a']) (.ColumnName ['b'])))
        .Empty .Empty) :=
  ⟨fun _ => ⟨rfl, rfl, rfl, rfl⟩, rfl, rfl⟩

/-- C9: parsing is a pure, deterministic function of the input text:
two parses of the same text yield the same result, be it an AST or an
error outcome. -/
theorem C9_deterministic (inp : List Char) (r₁ r₂ : Except BQLError Component)
    (h₁ : parseBQL inp = r₁) (h₂ : parseBQL inp = r₂) : r₁ = r₂ := by
  rw [← h₁, ← h₂]

/-- C9 witness: the determinism theorem applied to a concrete parse. -/
theorem C9_deterministic_witness :
    (Except.ok (Component.SelectStmt [.ColumnName ['a']] .Empty .Empty .Empty .Empty)
      : Except BQLError Component) =
      .ok (.SelectStmt [.ColumnName ['a']] .Empty .Empty .Empty .Empty) :=
  C9_deterministic ("SELECT a".toList) _ _ rfl rfl

end SensorBee
